import Mathlib

/-!
Shallow embedding of the Transaction Relay & Confirmation Tracking subsystem
(nonce allocation, backoff, confirmation polling, durable event sync,
idempotent event registration) together with theorems settling the spec's
claims about it.

Conventions: JavaScript numbers that only ever hold small integers are
modelled as `Nat`/`Int`; millisecond quantities that mix with fractional
factors (the 20% jitter) are modelled as `ℚ`; `Math.random()` is an explicit
parameter `r` with `0 ≤ r < 1`; chain RPC reads are explicit oracle
arguments; the MongoDB distinction between a missing field, a `null` field
and a `Date` field is modelled by a three-way sum because the worker's
selection query (`$exists: false` / `$lte: now`) distinguishes all three.
-/

namespace Relay

/-! ## Nonce manager (`lib/services/nonce.service.ts`, `getNextNonce`)

The cache is `Map<string, number>` keyed by the relayer address; since every
call uses the single `RELAYER_ADDRESS` key, the cache state is modelled as
`Option Nat` (the entry for that address, `none` when absent).  JS
`nonceCache.get(RELAYER_ADDRESS) || 0` reads 0 when the entry is absent. -/

/-- One call of `getNextNonce`: input is the chain-reported pending nonce and
the cache entry; output is the returned nonce and the new cache entry. -/
def getNextNonce (networkNonce : Nat) (cache : Option Nat) : Nat × Nat :=
  let cachedNonce := cache.getD 0
  let nextNonce := max networkNonce cachedNonce
  (nextNonce, nextNonce + 1)

/-- A sequence of allocations: one chain reading per call (the chain is an
external oracle, so readings are arbitrary).  Returns the list of allocated
nonces and the final cache entry. -/
def allocRun : List Nat → Option Nat → List Nat × Option Nat
  | [], cache => ([], cache)
  | c :: cs, cache =>
      let step := getNextNonce c cache
      let rest := allocRun cs (some step.2)
      (step.1 :: rest.1, rest.2)

/-! ## Backoff calculator (`lib/backoff.ts`, `calcBackoff`) -/

/-- `calcBackoff(attempt, baseMs, maxMs)` with `Math.random()` made explicit
as `r`: `exp = min(maxMs, baseMs * 2^attempt)`, `jitter = floor(r * (exp * 0.2))`,
result `exp + jitter`. -/
def calcBackoff (attempt : Nat) (baseMs maxMs : ℚ) (r : ℚ) : ℚ :=
  let exp : ℚ := min maxMs (baseMs * 2 ^ attempt)
  let jitter : ℚ := ((Int.floor (r * (exp * (1/5)))) : ℤ)
  exp + jitter

/-- The deterministic (jitter-free) capped exponential part of the delay. -/
def cappedExp (attempt : Nat) (baseMs maxMs : ℚ) : ℚ :=
  min maxMs (baseMs * 2 ^ attempt)

end Relay

namespace Relay

theorem cappedExp_nonneg (n : Nat) (b m : ℚ) (hb : 0 ≤ b) (hbm : b ≤ m) :
    0 ≤ cappedExp n b m := by
  unfold cappedExp
  refine le_min (le_trans hb hbm) ?_
  positivity

theorem cappedExp_ge_base (n : Nat) (b m : ℚ) (hb : 0 ≤ b) (hbm : b ≤ m) :
    b ≤ cappedExp n b m := by
  unfold cappedExp
  refine le_min hbm ?_
  calc b = b * 1 := by ring
  _ ≤ b * 2 ^ n := by
      refine mul_le_mul_of_nonneg_left ?_ hb
      exact one_le_pow₀ (by norm_num)

theorem cappedExp_mono (b m : ℚ) (hb : 0 ≤ b) {n k : Nat} (hnk : n ≤ k) :
    cappedExp n b m ≤ cappedExp k b m := by
  unfold cappedExp
  refine min_le_min le_rfl ?_
  refine mul_le_mul_of_nonneg_left ?_ hb
  exact pow_le_pow_right₀ (by norm_num) hnk

theorem calcBackoff_eq (n : Nat) (b m r : ℚ) :
    calcBackoff n b m r =
      cappedExp n b m + ((Int.floor (r * (cappedExp n b m * (1/5)))) : ℤ) := by
  rfl

theorem calcBackoff_lower (n : Nat) (b m r : ℚ) (hb : 0 ≤ b) (hbm : b ≤ m)
    (hr : 0 ≤ r) : cappedExp n b m ≤ calcBackoff n b m r := by
  rw [calcBackoff_eq]
  have hexp : 0 ≤ cappedExp n b m := cappedExp_nonneg n b m hb hbm
  have : (0 : ℚ) ≤ r * (cappedExp n b m * (1/5)) :=
    mul_nonneg hr (mul_nonneg hexp (by norm_num))
  have hfl : (0 : ℤ) ≤ Int.floor (r * (cappedExp n b m * (1/5))) :=
    Int.floor_nonneg.mpr this
  have : (0 : ℚ) ≤ ((Int.floor (r * (cappedExp n b m * (1/5)))) : ℤ) := by
    exact_mod_cast hfl
  linarith

theorem calcBackoff_upper (n : Nat) (b m r : ℚ) (hb : 0 ≤ b) (hbm : b ≤ m)
    (hr1 : r < 1) :
    calcBackoff n b m r ≤ cappedExp n b m * (6/5) := by
  rw [calcBackoff_eq]
  have hexp : 0 ≤ cappedExp n b m := cappedExp_nonneg n b m hb hbm
  have h1 : ((Int.floor (r * (cappedExp n b m * (1/5)))) : ℚ) ≤
      r * (cappedExp n b m * (1/5)) := Int.floor_le _
  have h2 : r * (cappedExp n b m * (1/5)) ≤ cappedExp n b m * (1/5) := by
    have := mul_le_mul_of_nonneg_right hr1.le
      (mul_nonneg hexp (by norm_num : (0:ℚ) ≤ 1/5))
    linarith
  linarith

theorem calcBackoff_mono (b m r : ℚ) (hb : 0 ≤ b) (hr : 0 ≤ r)
    {n k : Nat} (hnk : n ≤ k) :
    calcBackoff n b m r ≤ calcBackoff k b m r := by
  rw [calcBackoff_eq, calcBackoff_eq]
  have hexp : cappedExp n b m ≤ cappedExp k b m := cappedExp_mono b m hb hnk
  have harg : r * (cappedExp n b m * (1/5)) ≤ r * (cappedExp k b m * (1/5)) := by
    refine mul_le_mul_of_nonneg_left ?_ hr
    linarith
  have hfl := Int.floor_le_floor harg
  have : ((Int.floor (r * (cappedExp n b m * (1/5)))) : ℚ) ≤
      ((Int.floor (r * (cappedExp k b m * (1/5)))) : ℚ) := by exact_mod_cast hfl
  linarith

end Relay

/-- C1: a successful `getNextNonce` call returns `max(chainNonce, cachedNonce)`
(the cache defaulting to 0 when absent) and stores `returned + 1` as the new
cache entry for the relayer address; concretely, chain 5 / cached 7 returns 7
and caches 8, and chain 10 / cached 7 returns 10 and caches 11. -/
theorem C1_nonce_allocation (chainNonce : Nat) (cache : Option Nat) :
    (Relay.getNextNonce chainNonce cache).1 = max chainNonce (cache.getD 0) ∧
    (Relay.getNextNonce chainNonce cache).2 =
      (Relay.getNextNonce chainNonce cache).1 + 1 ∧
    Relay.getNextNonce 5 (some 7) = (7, 8) ∧
    Relay.getNextNonce 10 (some 7) = (10, 11) := by
  refine ⟨rfl, rfl, by decide, by decide⟩

/-- C3: `calcBackoff` returns `min(max, base * 2^n)` plus a random jitter of at
most 20% of that capped value; the delay is monotonically non-decreasing in the
attempt count (up to the configured max) and bounded by
`base ≤ delay(n) ≤ max * 1.2`, for attempt counts `n ≥ 1` and a sane
configuration `0 ≤ base ≤ max` with jitter draw `0 ≤ r < 1`. -/
theorem C3_backoff_contract (n k : Nat) (b m r : ℚ) (hn : 1 ≤ n) (hb : 0 ≤ b)
    (hbm : b ≤ m) (hr : 0 ≤ r) (hr1 : r < 1) (hnk : n ≤ k) :
    Relay.calcBackoff n b m r =
      Relay.cappedExp n b m +
        ((Int.floor (r * (Relay.cappedExp n b m * (1/5)))) : ℤ) ∧
    (0 : ℚ) ≤ ((Int.floor (r * (Relay.cappedExp n b m * (1/5)))) : ℤ) ∧
    ((Int.floor (r * (Relay.cappedExp n b m * (1/5)))) : ℚ) ≤
      Relay.cappedExp n b m * (1/5) ∧
    b ≤ Relay.calcBackoff n b m r ∧
    Relay.calcBackoff n b m r ≤ m * (6/5) ∧
    Relay.calcBackoff n b m r ≤ Relay.calcBackoff k b m r := by
  have hexp : 0 ≤ Relay.cappedExp n b m := Relay.cappedExp_nonneg n b m hb hbm
  have hargnn : (0 : ℚ) ≤ r * (Relay.cappedExp n b m * (1/5)) :=
    mul_nonneg hr (mul_nonneg hexp (by norm_num))
  refine ⟨Relay.calcBackoff_eq n b m r, ?_, ?_, ?_, ?_, ?_⟩
  · exact_mod_cast Int.floor_nonneg.mpr hargnn
  · have h1 : ((Int.floor (r * (Relay.cappedExp n b m * (1/5)))) : ℚ) ≤
        r * (Relay.cappedExp n b m * (1/5)) := Int.floor_le _
    have h2 : r * (Relay.cappedExp n b m * (1/5)) ≤
        Relay.cappedExp n b m * (1/5) := by
      have := mul_le_mul_of_nonneg_right hr1.le
        (mul_nonneg hexp (by norm_num : (0:ℚ) ≤ 1/5))
      linarith
    linarith
  · exact le_trans (Relay.cappedExp_ge_base n b m hb hbm)
      (Relay.calcBackoff_lower n b m r hb hbm hr)
  · have h1 := Relay.calcBackoff_upper n b m r hb hbm hr1
    have h2 : Relay.cappedExp n b m ≤ m := min_le_left _ _
    have : Relay.cappedExp n b m * (6/5) ≤ m * (6/5) := by linarith
    linarith
  · exact Relay.calcBackoff_mono b m r hb hr hnk

/-- Witness for C3 at `n = 1`, `k = 2`, `base = 1000`, `max = 60000`,
`r = 1/2`. -/
theorem C3_backoff_contract_witness :
    (1000 : ℚ) ≤ Relay.calcBackoff 1 1000 60000 (1/2) ∧
    Relay.calcBackoff 1 1000 60000 (1/2) ≤ 72000 ∧
    Relay.calcBackoff 1 1000 60000 (1/2) ≤ Relay.calcBackoff 2 1000 60000 (1/2) := by
  obtain ⟨-, -, -, h1, h2, h3⟩ := C3_backoff_contract 1 2 1000 60000 (1/2)
    (le_refl 1) (by norm_num) (by norm_num) (by norm_num) (by norm_num)
    (by norm_num)
  refine ⟨h1, by linarith, h3⟩

namespace Relay

theorem allocRun_ge (cs : List Nat) (k : Nat) :
    ∀ n ∈ (allocRun cs (some k)).1, k ≤ n := by
  induction cs generalizing k with
  | nil => intro n hn; simp [allocRun] at hn
  | cons c cs ih =>
      intro n hn
      simp only [allocRun, getNextNonce, Option.getD_some, List.mem_cons] at hn
      rcases hn with h | h
      · subst h; exact le_max_right c k
      · have := ih (max c k + 1) n h
        exact le_trans (le_trans (le_max_right c k) (Nat.le_succ _)) this

theorem allocRun_pairwise (cs : List Nat) (cache : Option Nat) :
    ((allocRun cs cache).1).Pairwise (· < ·) := by
  induction cs generalizing cache with
  | nil => simp [allocRun]
  | cons c cs ih =>
      simp only [allocRun, getNextNonce]
      refine List.Pairwise.cons ?_ (ih _)
      intro n hn
      have := allocRun_ge cs (max c (cache.getD 0) + 1) n hn
      omega

theorem allocRun_const (N c : Nat) (cache : Option Nat) :
    (allocRun (List.replicate N c) cache).1 =
      List.range' (max c (cache.getD 0)) N := by
  induction N generalizing cache with
  | zero => simp [allocRun]
  | succ N ih =>
      simp only [List.replicate, allocRun, getNextNonce]
      rw [List.range'_succ]
      refine congrArg (_ :: ·) ?_
      rw [ih (some (max c (cache.getD 0) + 1))]
      have hc : c ≤ max c (cache.getD 0) + 1 :=
        le_trans (le_max_left _ _) (Nat.le_succ _)
      simp [Nat.max_eq_right hc]

end Relay

/-- C2 (amended): in any sequence of `getNextNonce` allocations the returned
nonces are pairwise distinct — strictly increasing in allocation order — for
every sequence of chain readings and every starting cache; and when the chain
reports the same pending nonce `c` at every call (a concurrent burst against a
fixed chain view), the returned nonces form the contiguous block starting at
`max c cachedNonce`.  Contiguity does not hold for arbitrary chain readings
(see the counterexample). -/
theorem C2_nonce_distinct_contiguous (cs : List Nat) (cache : Option Nat)
    (N c : Nat) (k : Option Nat) :
    ((Relay.allocRun cs cache).1).Pairwise (· < ·) ∧
    (Relay.allocRun (List.replicate N c) k).1 =
      List.range' (max c (k.getD 0)) N := by
  exact ⟨Relay.allocRun_pairwise cs cache, Relay.allocRun_const N c k⟩

/-- C2 counterexample: two allocations whose chain readings are 5 then 10
(the chain nonce jumped past the cache between the calls) return the nonces
`[5, 10]` — pairwise distinct, but not a contiguous sequence. -/
theorem C2_counterexample :
    (Relay.allocRun [5, 10] none).1 = [5, 10] ∧
    ¬ List.Chain' (fun a b => b = a + 1) (Relay.allocRun [5, 10] none).1 := by
  constructor
  · rfl
  · simp [Relay.allocRun, Relay.getNextNonce]

namespace Relay

/-! ## Chain reads and the confirmation tracker

`getConfirmations` is from `lib/services/blockchain.service.ts` (its full text
is reproduced in `docs/error-catalog.md`); `trackTransactionConfirmation` is
from `lib/services/confirmation.service.ts`.  A polling attempt's chain
observation is `none` when there is no receipt yet (or the RPC call threw —
the loop treats both identically) and `some (b, h)` when the receipt reports
block `b` with current chain height `h`; per JS truthiness, a receipt whose
`blockNumber` is `0` is treated as still pending by the tracker. -/

/-- `getConfirmations`: `null` without a receipt, `0` for a falsy block
number, else `max(0, currentBlock - receiptBlock + 1)`. -/
def getConfirmations (receiptBlock : Option Int) (currentBlock : Int) :
    Option Int :=
  match receiptBlock with
  | none => none
  | some b => if b = 0 then some 0 else some (max 0 (currentBlock - b + 1))

/-- The tracker's depth computation: `currentBlock - receipt.blockNumber + 1`. -/
def trackerConfirmations (txBlock currentBlock : Int) : Int :=
  currentBlock - txBlock + 1

/-- `CONFIRMATION_COUNT = 2`: the tracker's target depth. -/
def CONFIRMATION_COUNT : Int := 2

/-- `MAX_ATTEMPTS = 10`: the tracker's retry budget. -/
def MAX_ATTEMPTS : Nat := 10

/-- The inter-attempt delay the tracker computes:
`Math.pow(2, attempt) * 1000`. -/
def trackDelay (attempt : Nat) : Nat := 2 ^ attempt * 1000

/-- Whether one polling attempt succeeds (receipt present with truthy block
number and depth at target). -/
def trackAttemptOk (obs : Option (Int × Int)) : Bool :=
  match obs with
  | none => false
  | some (b, h) =>
      if b = 0 then false
      else decide (CONFIRMATION_COUNT ≤ trackerConfirmations b h)

/-- The tracker's retry loop.  `made` counts attempts already made, `fuel` the
attempts still allowed; the result is (success flag, attempts made in total,
list of delays slept between attempts).  The source sleeps only when the
attempt just made was not the last one. -/
def trackLoopAux (obs : Nat → Option (Int × Int)) :
    Nat → Nat → Bool × Nat × List Nat
  | made, 0 => (false, made, [])
  | made, fuel + 1 =>
      if trackAttemptOk (obs (made + 1)) then (true, made + 1, [])
      else if fuel = 0 then (false, made + 1, [])
      else
        let rest := trackLoopAux obs (made + 1) fuel
        (rest.1, rest.2.1, trackDelay (made + 1) :: rest.2.2)

/-- `trackTransactionConfirmation` with the chain made an explicit oracle:
runs the loop from zero attempts with budget `MAX_ATTEMPTS`. -/
def trackTransactionConfirmation (obs : Nat → Option (Int × Int)) :
    Bool × Nat × List Nat :=
  trackLoopAux obs 0 MAX_ATTEMPTS

theorem trackLoopAux_spec (obs : Nat → Option (Int × Int)) (fuel made : Nat) :
    (trackLoopAux obs made fuel).2.2 =
      (List.range' (made + 1)
        ((trackLoopAux obs made fuel).2.1 - (made + 1))).map trackDelay ∧
    (trackLoopAux obs made fuel).2.1 ≤ made + fuel ∧
    (fuel ≠ 0 → made + 1 ≤ (trackLoopAux obs made fuel).2.1) := by
  induction fuel generalizing made with
  | zero => simp [trackLoopAux]
  | succ fuel ih =>
      by_cases hok : trackAttemptOk (obs (made + 1)) = true
      · simp [trackLoopAux, hok]
      · by_cases hf : fuel = 0
        · subst hf
          simp [trackLoopAux, hok]
        · obtain ⟨ha, hb, hc⟩ := ih (made + 1)
          have hge : made + 2 ≤ (trackLoopAux obs (made + 1) fuel).2.1 := hc hf
          simp only [trackLoopAux, hok, if_false, hf, Bool.false_eq_true]
          refine ⟨?_, ?_, ?_⟩
          · rw [ha]
            have : (trackLoopAux obs (made + 1) fuel).2.1 - (made + 1) =
                ((trackLoopAux obs (made + 1) fuel).2.1 - (made + 2)) + 1 := by
              omega
            rw [this, List.range'_succ, List.map_cons]
          · omega
          · intro _; omega

end Relay

/-- C4: the confirmation depth computed for a receipt reporting block `b` at
chain height `h` is `h - b + 1` in both the in-memory tracker and
`getConfirmations` (for a truthy block number at non-negative depth), so a
transaction in the latest block has depth 1; concretely `b = 100, h = 101`
gives depth 2 and `b = 100, h = 100` gives depth 1, and the tracker's success
test for that observation is exactly `target ≤ h - b + 1`. -/
theorem C4_confirmation_depth (b h : Int) (hb : b ≠ 0) (hbh : b ≤ h) :
    Relay.trackerConfirmations b h = h - b + 1 ∧
    Relay.getConfirmations (some b) h = some (h - b + 1) ∧
    Relay.trackAttemptOk (some (b, h)) =
      decide (Relay.CONFIRMATION_COUNT ≤ h - b + 1) ∧
    Relay.trackerConfirmations h h = 1 ∧
    Relay.trackerConfirmations 100 101 = 2 ∧
    Relay.trackerConfirmations 100 100 = 1 ∧
    Relay.getConfirmations (some 100) 101 = some 2 ∧
    Relay.getConfirmations (some 100) 100 = some 1 := by
  refine ⟨rfl, ?_, ?_, ?_, by decide, by decide, by decide, by decide⟩
  · simp only [Relay.getConfirmations, hb, if_false]
    have : max 0 (h - b + 1) = h - b + 1 := max_eq_right (by omega)
    rw [this]
  · simp [Relay.trackAttemptOk, hb, Relay.trackerConfirmations]
  · simp [Relay.trackerConfirmations]

/-- Witness for C4 at `b = 100`, `h = 101`. -/
theorem C4_confirmation_depth_witness :
    Relay.trackerConfirmations 100 101 = 101 - 100 + 1 ∧
    Relay.getConfirmations (some 100) 101 = some (101 - 100 + 1) := by
  obtain ⟨h1, h2, -⟩ :=
    C4_confirmation_depth 100 101 (by norm_num) (by norm_num)
  exact ⟨h1, h2⟩

/-- C5 (amended): between polling attempts in which the transaction is absent
or not yet at the target depth, the in-memory Confirmation Tracker waits
`2^n * 1000` milliseconds after attempt `n` — an uncapped, jitter-free
exponential delay computed inline, not the Backoff Calculator's
jittered-and-capped delay — and retries up to a maximum of 10 attempts: if it
stops after `a` attempts, the delays slept are exactly
`2^1*1000, …, 2^(a-1)*1000`. -/
theorem C5_tracker_delays (obs : Nat → Option (Int × Int)) :
    (Relay.trackTransactionConfirmation obs).2.2 =
      (List.range' 1
        ((Relay.trackTransactionConfirmation obs).2.1 - 1)).map
          Relay.trackDelay ∧
    (Relay.trackTransactionConfirmation obs).2.1 ≤ Relay.MAX_ATTEMPTS ∧
    ∀ n, Relay.trackDelay n = 2 ^ n * 1000 := by
  obtain ⟨h1, h2, -⟩ := Relay.trackLoopAux_spec obs Relay.MAX_ATTEMPTS 0
  exact ⟨h1, h2, fun n => rfl⟩

/-- C5 counterexample: the delay the tracker sleeps after attempt 9 (it is
actually slept when the chain never answers) is 512000 ms, which no draw of
the Backoff Calculator's jitter can produce with the configured base 1000 ms
and max 60000 ms: `calcBackoff` is capped at `60000 * 1.2 = 72000` ms. -/
theorem C5_counterexample :
    Relay.trackDelay 9 ∈
      (Relay.trackTransactionConfirmation (fun _ => none)).2.2 ∧
    ¬ ∃ r : ℚ, 0 ≤ r ∧ r < 1 ∧
      ((Relay.trackDelay 9 : ℚ) = Relay.calcBackoff 9 1000 60000 r) := by
  constructor
  · decide
  · rintro ⟨r, -, hr1, heq⟩
    have hub := Relay.calcBackoff_upper 9 1000 60000 r (by norm_num)
      (by norm_num) hr1
    have hcap : Relay.cappedExp 9 1000 60000 = 60000 := by
      norm_num [Relay.cappedExp]
    rw [hcap] at hub
    have hd : ((Relay.trackDelay 9 : Nat) : ℚ) = 512000 := by
      norm_num [Relay.trackDelay]
    rw [hd] at heq
    linarith [heq ▸ hub]

namespace Relay

/-! ## Durable event sync worker (`models/Event.ts` and the sync worker file)

The Event schema declares `nextRetryAt: { type: Date, default: null }`, so a
document created without that key stores the field with value `null`.  The
worker's selection query is
`{ status: 'PENDING', $or: [ { nextRetryAt: { $exists: false } },
{ nextRetryAt: { $lte: now } } ] }`; under MongoDB semantics `$exists: false`
matches only documents missing the field, and `$lte` with a Date operand
matches only Date values.  The model therefore keeps the three field states
apart. -/

/-- The `EventStatus` enum of `models/Event.ts`. -/
inductive EventStatus
  | PENDING
  | CONFIRMED
  | FAILED
  | FINALIZED
deriving DecidableEq

/-- A Date-typed MongoDB field: absent, `null`, or an actual date
(milliseconds). -/
inductive DateField
  | missing
  | null
  | date (t : ℚ)
deriving DecidableEq

/-- The durable `TrackedEvent` document (fields the worker touches). -/
structure TrackedEvent where
  requestId : String
  txHash : String
  eventName : String
  status : EventStatus
  confirmations : Nat
  attempts : Nat
  nextRetryAt : DateField
deriving DecidableEq

/-- `CONFIRMATIONS_REQUIRED` default. -/
def REQUIRED_CONFIRMATIONS : Nat := 2

/-- `BACKOFF_BASE_MS` default. -/
def BACKOFF_BASE_MS : ℚ := 1000

/-- `BACKOFF_MAX_MS` default. -/
def BACKOFF_MAX_MS : ℚ := 60000

/-- `enqueueEvent`: creates the document with status PENDING, attempts 0,
confirmations 0; `nextRetryAt` is not passed, so the schema default `null` is
stored. -/
def enqueueEvent (requestId txHash eventName : String) : TrackedEvent :=
  { requestId := requestId, txHash := txHash, eventName := eventName,
    status := .PENDING, confirmations := 0, attempts := 0,
    nextRetryAt := .null }

/-- Whether the selection query's `$or` clause matches the event's
`nextRetryAt` at time `now`. -/
def retryDue (now : ℚ) : DateField → Bool
  | .missing => true
  | .null => false
  | .date t => decide (t ≤ now)

/-- The worker's selection predicate: status PENDING and retry due. -/
def selected (now : ℚ) (ev : TrackedEvent) : Bool :=
  decide (ev.status = .PENDING) && retryDue now ev.nextRetryAt

/-- One processing step on a selected event.  The chain reading is the
`getConfirmations` result; `none` covers both the thrown `TX_NOT_YET_KNOWN`
and any other error during the step (the catch block treats them alike).
`r` is the jitter draw inside `calcBackoff`.  On finalization the code
assigns `undefined` to `nextRetryAt`, which removes the field on save. -/
def processEvent (now r : ℚ) (reading : Option Nat) (ev : TrackedEvent) :
    TrackedEvent :=
  match reading with
  | some c =>
      if REQUIRED_CONFIRMATIONS ≤ c then
        { ev with
            confirmations := c,
            status := .FINALIZED,
            nextRetryAt := .missing }
      else
        { ev with
            confirmations := c,
            attempts := ev.attempts + 1,
            nextRetryAt := .date (now +
              calcBackoff (ev.attempts + 1) BACKOFF_BASE_MS BACKOFF_MAX_MS r) }
  | none =>
      { ev with
          attempts := ev.attempts + 1,
          nextRetryAt := .date (now +
            calcBackoff (ev.attempts + 1) BACKOFF_BASE_MS BACKOFF_MAX_MS r) }

/-- A processing pass as one event sees it: the step runs only if the
selection query matched. -/
def processPass (now r : ℚ) (reading : Option Nat) (ev : TrackedEvent) :
    TrackedEvent :=
  if selected now ev then processEvent now r reading ev else ev

/-- Several passes, each with its own time, jitter draw and chain reading. -/
def processPasses : List (ℚ × ℚ × Option Nat) → TrackedEvent → TrackedEvent
  | [], ev => ev
  | (now, r, reading) :: ps, ev => processPasses ps (processPass now r reading ev)

end Relay

/-- C6: an event created by `enqueueEvent` starts with status PENDING,
confirmation count 0, attempts 0 and no retry-after date — but it is NOT
eligible: the schema stores `nextRetryAt` as `null`, which the selection
query (`$exists: false` / `$lte: now`) never matches, so no processing pass
ever selects (or changes) the freshly enqueued event. -/
theorem C6_enqueue_never_selected (requestId txHash eventName : String)
    (now : ℚ) (ps : List (ℚ × ℚ × Option Nat)) :
    (Relay.enqueueEvent requestId txHash eventName).status = .PENDING ∧
    (Relay.enqueueEvent requestId txHash eventName).confirmations = 0 ∧
    (Relay.enqueueEvent requestId txHash eventName).attempts = 0 ∧
    (Relay.enqueueEvent requestId txHash eventName).nextRetryAt = .null ∧
    Relay.selected now (Relay.enqueueEvent requestId txHash eventName) = false ∧
    Relay.processPasses ps (Relay.enqueueEvent requestId txHash eventName) =
      Relay.enqueueEvent requestId txHash eventName := by
  refine ⟨rfl, rfl, rfl, rfl, ?_, ?_⟩
  · simp [Relay.selected, Relay.enqueueEvent, Relay.retryDue]
  · induction ps with
    | nil => rfl
    | cons p ps ih =>
        obtain ⟨n, r, reading⟩ := p
        have hsel : Relay.selected n (Relay.enqueueEvent requestId txHash
            eventName) = false := by
          simp [Relay.selected, Relay.enqueueEvent, Relay.retryDue]
        simp only [Relay.processPasses, Relay.processPass, hsel,
          Bool.false_eq_true, if_false]
        exact ih

/-- C7 (amended): a processing pass never touches an event whose status is
FINALIZED (the selection query only matches PENDING), so status never
regresses from FINALIZED — across any sequence of passes; and the stored
confirmation count does not decrease in a pass whose chain reading is at
least the currently stored count (the code overwrites the count with the
latest reading instead of taking a maximum, so it can decrease when the chain
reports a smaller depth — see the counterexample). -/
theorem C7_event_invariants (ev : Relay.TrackedEvent) (now r : ℚ)
    (reading : Option Nat) (ps : List (ℚ × ℚ × Option Nat)) :
    (ev.status = .FINALIZED → Relay.processPass now r reading ev = ev) ∧
    (ev.status = .FINALIZED → Relay.processPasses ps ev = ev) ∧
    ((∀ c, reading = some c → ev.confirmations ≤ c) →
      ev.confirmations ≤ (Relay.processPass now r reading ev).confirmations) := by
  have hfin : ∀ (n rr : ℚ) (rd : Option Nat), ev.status = .FINALIZED →
      Relay.processPass n rr rd ev = ev := by
    intro n rr rd h
    have hsel : Relay.selected n ev = false := by
      simp [Relay.selected, h]
    simp [Relay.processPass, hsel]
  refine ⟨hfin now r reading, ?_, ?_⟩
  · intro h
    induction ps with
    | nil => rfl
    | cons p ps ih =>
        obtain ⟨n, rr, rd⟩ := p
        simp only [Relay.processPasses, hfin n rr rd h]
        exact ih
  · intro hmono
    by_cases hsel : Relay.selected now ev = true
    · cases reading with
      | none => simp [Relay.processPass, hsel, Relay.processEvent]
      | some c =>
          have hc : ev.confirmations ≤ c := hmono c rfl
          by_cases hreq : Relay.REQUIRED_CONFIRMATIONS ≤ c
          · simp [Relay.processPass, hsel, Relay.processEvent, hreq, hc]
          · simp [Relay.processPass, hsel, Relay.processEvent, hreq, hc]
    · simp only [Bool.not_eq_true] at hsel
      simp [Relay.processPass, hsel]

/-- Witness for C7 at a concrete FINALIZED event and a `none` reading. -/
theorem C7_event_invariants_witness :
    Relay.processPass 0 0 none
      { requestId := "r", txHash := "0xabc", eventName := "VoteCast",
        status := .FINALIZED, confirmations := 2, attempts := 1,
        nextRetryAt := .missing } =
      { requestId := "r", txHash := "0xabc", eventName := "VoteCast",
        status := .FINALIZED, confirmations := 2, attempts := 1,
        nextRetryAt := .missing } := by
  obtain ⟨h1, -, -⟩ := C7_event_invariants
    { requestId := "r", txHash := "0xabc", eventName := "VoteCast",
      status := .FINALIZED, confirmations := 2, attempts := 1,
      nextRetryAt := .missing } 0 0 none []
  exact h1 rfl

/-- C7 counterexample: an event whose stored confirmation count is 1 (a state
the worker itself produces after observing depth 1) is selected by a later
pass in which the chain reports depth 0; the pass stores 0, so the stored
confirmation count decreases. -/
theorem C7_counterexample :
    (Relay.processPass 0 0 (some 0)
      { requestId := "r", txHash := "0xabc", eventName := "VoteCast",
        status := .PENDING, confirmations := 1, attempts := 1,
        nextRetryAt := .date 0 }).confirmations = 0 ∧
    ¬ (1 : Nat) ≤ (Relay.processPass 0 0 (some 0)
      { requestId := "r", txHash := "0xabc", eventName := "VoteCast",
        status := .PENDING, confirmations := 1, attempts := 1,
        nextRetryAt := .date 0 }).confirmations := by
  have h : (Relay.processPass 0 0 (some 0)
      { requestId := "r", txHash := "0xabc", eventName := "VoteCast",
        status := .PENDING, confirmations := 1, attempts := 1,
        nextRetryAt := .date 0 }).confirmations = 0 := by
    simp [Relay.processPass, Relay.selected, Relay.retryDue,
      Relay.processEvent, Relay.REQUIRED_CONFIRMATIONS]
  exact ⟨h, by omega⟩

namespace Relay

theorem trackLoopAux_none (obs : Nat → Option (Int × Int))
    (hobs : ∀ n, obs n = none) (fuel made : Nat) :
    (trackLoopAux obs made fuel).1 = false ∧
    (trackLoopAux obs made fuel).2.1 = made + fuel := by
  induction fuel generalizing made with
  | zero => simp [trackLoopAux]
  | succ fuel ih =>
      have hok : trackAttemptOk (obs (made + 1)) = false := by
        rw [hobs (made + 1)]; rfl
      by_cases hf : fuel = 0
      · subst hf
        simp [trackLoopAux, hok]
      · obtain ⟨h1, h2⟩ := ih (made + 1)
        simp only [trackLoopAux, hok, Bool.false_eq_true, if_false, hf]
        exact ⟨h1, by omega⟩

end Relay

/-- C8 (amended): when the chain never yields a receipt, the in-memory
tracker gives up after exactly its `MAX_ATTEMPTS = 10` attempts without
success (and without persisting any status), but the durable event has no
attempt budget at all: every pass that selects a PENDING event and gets no
receipt leaves it PENDING, increments its attempts (without bound) and
schedules a further retry date, so automatic retries never cease. -/
theorem C8_no_attempt_budget (obs : Nat → Option (Int × Int))
    (ev : Relay.TrackedEvent) (now r : ℚ)
    (hobs : ∀ n, obs n = none) (hsel : Relay.selected now ev = true) :
    (Relay.trackTransactionConfirmation obs).1 = false ∧
    (Relay.trackTransactionConfirmation obs).2.1 = Relay.MAX_ATTEMPTS ∧
    (Relay.processPass now r none ev).status = .PENDING ∧
    (Relay.processPass now r none ev).attempts = ev.attempts + 1 ∧
    (Relay.processPass now r none ev).nextRetryAt =
      .date (now + Relay.calcBackoff (ev.attempts + 1)
        Relay.BACKOFF_BASE_MS Relay.BACKOFF_MAX_MS r) := by
  obtain ⟨h1, h2⟩ := Relay.trackLoopAux_none obs hobs Relay.MAX_ATTEMPTS 0
  have hpend : ev.status = .PENDING := by
    have := hsel
    simp only [Relay.selected, Bool.and_eq_true, decide_eq_true_eq] at this
    exact this.1
  refine ⟨h1, h2, ?_, ?_, ?_⟩
  · simp [Relay.processPass, hsel, Relay.processEvent, hpend]
  · simp [Relay.processPass, hsel, Relay.processEvent]
  · simp [Relay.processPass, hsel, Relay.processEvent]

/-- Witness for C8 at the all-`none` oracle and a concrete selected PENDING
event. -/
theorem C8_no_attempt_budget_witness :
    (Relay.trackTransactionConfirmation (fun _ => none)).1 = false ∧
    (Relay.trackTransactionConfirmation (fun _ => none)).2.1 =
      Relay.MAX_ATTEMPTS ∧
    (Relay.processPass 0 0 none
      { requestId := "r", txHash := "0xabc", eventName := "VoteCast",
        status := .PENDING, confirmations := 0, attempts := 0,
        nextRetryAt := .missing }).attempts = 0 + 1 := by
  obtain ⟨h1, h2, -, h4, -⟩ := C8_no_attempt_budget (fun _ => none)
    { requestId := "r", txHash := "0xabc", eventName := "VoteCast",
      status := .PENDING, confirmations := 0, attempts := 0,
      nextRetryAt := .missing } 0 0 (fun _ => rfl) (by decide)
  exact ⟨h1, h2, h4⟩

/-- C8 counterexample: an event that has already used 10 attempts — the only
configured maximum in the subsystem, the tracker's `MAX_ATTEMPTS` — is still
selected by the next pass when its retry time has elapsed; the pass raises
its attempts to 11 (beyond any claimed budget), keeps it PENDING and
schedules yet another retry, which is again due 60000 ms later: tracking of
the durable event never stops retrying. -/
theorem C8_counterexample :
    Relay.selected 0
      { requestId := "r", txHash := "0xabc", eventName := "VoteCast",
        status := .PENDING, confirmations := 0, attempts := 10,
        nextRetryAt := .date 0 } = true ∧
    (Relay.processPass 0 0 none
      { requestId := "r", txHash := "0xabc", eventName := "VoteCast",
        status := .PENDING, confirmations := 0, attempts := 10,
        nextRetryAt := .date 0 }).attempts = 11 ∧
    (Relay.processPass 0 0 none
      { requestId := "r", txHash := "0xabc", eventName := "VoteCast",
        status := .PENDING, confirmations := 0, attempts := 10,
        nextRetryAt := .date 0 }).status = .PENDING ∧
    Relay.selected 60000 (Relay.processPass 0 0 none
      { requestId := "r", txHash := "0xabc", eventName := "VoteCast",
        status := .PENDING, confirmations := 0, attempts := 10,
        nextRetryAt := .date 0 }) = true := by
  refine ⟨by decide, ?_, ?_, ?_⟩
  · simp [Relay.processPass, Relay.selected, Relay.retryDue,
      Relay.processEvent]
  · simp [Relay.processPass, Relay.selected, Relay.retryDue,
      Relay.processEvent]
  · simp only [Relay.processPass, Relay.selected, Relay.retryDue,
      Relay.processEvent]
    norm_num [Relay.calcBackoff, Relay.BACKOFF_BASE_MS, Relay.BACKOFF_MAX_MS,
      Relay.selected, Relay.retryDue]

namespace Relay

/-! ## Relayer dispatch endpoint (`app/api/relay/route.ts`, `POST`) -/

/-- The relay request body (after JSON parsing); `toAddr` and `callData`
model the JSON fields named `to` and `data`. -/
structure RelayRequest where
  toAddr : String
  callData : String
  pollId : String
  chainId : Int
  deadline : Int

/-- The Zod schema checks: `to` and `data` start with "0x", `pollId` is a
non-empty string, `chainId` and `deadline` are positive integers. -/
def relayValidate (req : RelayRequest) : Bool :=
  req.toAddr.startsWith "0x" && req.callData.startsWith "0x" &&
    decide (1 ≤ req.pollId.length) && decide (0 < req.chainId) &&
    decide (0 < req.deadline)

/-- What one dispatch attempt does in the environment: `getNextNonce` throws,
or the nonce is obtained but `sendTransaction` throws, or the send succeeds
with a transaction hash. -/
inductive AttemptOutcome
  | nonceFail
  | sendFail
  | sendOk (txHash : String) (nonce : Nat)

/-- `MAX_RETRIES = 2` extra attempts after the first. -/
def MAX_RETRIES : Nat := 2

/-- The dispatch retry loop: at each attempt, call `getNextNonce`, then
`sendTransaction`; on an exception retry (after a fixed delay) while attempts
remain.  Returns the successful (hash, nonce) if any, the number of
`getNextNonce` calls, and the number of `sendTransaction` calls. -/
def relayAttempts (outcomes : Nat → AttemptOutcome) :
    Nat → Nat → Option (String × Nat) × Nat × Nat
  | _, 0 => (none, 0, 0)
  | attempt, fuel + 1 =>
      match outcomes attempt with
      | .sendOk h n => (some (h, n), 1, 1)
      | .nonceFail =>
          if fuel = 0 then (none, 1, 0)
          else
            let rest := relayAttempts outcomes (attempt + 1) fuel
            (rest.1, rest.2.1 + 1, rest.2.2)
      | .sendFail =>
          if fuel = 0 then (none, 1, 1)
          else
            let rest := relayAttempts outcomes (attempt + 1) fuel
            (rest.1, rest.2.1 + 1, rest.2.2 + 1)

/-- An HTTP response, reduced to status code and the `success` flag. -/
structure RelayResponse where
  status : Nat
  success : Bool
deriving DecidableEq

/-- `POST /api/relay`: missing secrets give 500; a Zod validation failure
gives 400; a deadline not strictly in the future (seconds since epoch) gives
400 before any chain interaction; otherwise the retry loop runs and the
result is 200 on success or 500 after exhaustion.  Returns the response
together with the `getNextNonce` and `sendTransaction` call counts. -/
def relayPOST (secretsPresent : Bool) (now : Int) (req : RelayRequest)
    (outcomes : Nat → AttemptOutcome) : RelayResponse × Nat × Nat :=
  if !secretsPresent then (⟨500, false⟩, 0, 0)
  else if !relayValidate req then (⟨400, false⟩, 0, 0)
  else if req.deadline ≤ now then (⟨400, false⟩, 0, 0)
  else
    match relayAttempts outcomes 0 (MAX_RETRIES + 1) with
    | (some _, nc, sc) => (⟨200, true⟩, nc, sc)
    | (none, nc, sc) => (⟨500, false⟩, nc, sc)

end Relay

/-- C9: a relay request whose deadline is not strictly in the future is
rejected with a 400 validation failure before the dispatch loop runs: zero
`getNextNonce` calls and zero `sendTransaction` calls, whatever the
environment would have answered. -/
theorem C9_expired_deadline (req : Relay.RelayRequest) (now : Int)
    (outcomes : Nat → Relay.AttemptOutcome) (hd : req.deadline ≤ now) :
    (Relay.relayPOST true now req outcomes).1.status = 400 ∧
    (Relay.relayPOST true now req outcomes).1.success = false ∧
    (Relay.relayPOST true now req outcomes).2.1 = 0 ∧
    (Relay.relayPOST true now req outcomes).2.2 = 0 := by
  by_cases hv : Relay.relayValidate req = true
  · simp [Relay.relayPOST, hv, hd]
  · simp only [Bool.not_eq_true] at hv
    simp [Relay.relayPOST, hv]

/-- Witness for C9: a well-formed request whose deadline 100 is already past
at time 200, in an environment where dispatch would have succeeded. -/
theorem C9_expired_deadline_witness :
    (Relay.relayPOST true 200
      { toAddr := "0x1234", callData := "0xabcd", pollId := "poll-1",
        chainId := 11155111, deadline := 100 }
      (fun _ => .sendOk "0xtxhash" 1)).1.status = 400 ∧
    (Relay.relayPOST true 200
      { toAddr := "0x1234", callData := "0xabcd", pollId := "poll-1",
        chainId := 11155111, deadline := 100 }
      (fun _ => .sendOk "0xtxhash" 1)).2.1 = 0 := by
  obtain ⟨h1, -, h3, -⟩ := C9_expired_deadline
    { toAddr := "0x1234", callData := "0xabcd", pollId := "poll-1",
      chainId := 11155111, deadline := 100 } 200
    (fun _ => .sendOk "0xtxhash" 1) (by decide)
  exact ⟨h1, h3⟩

namespace Relay

/-! ## Idempotent event registration (`lib/services/db.service.ts`,
`syncEventAndConfirm`; its full text is reproduced in
`docs/error-catalog.md`).  The store is viewed through the lens of one event
id: the `findOne({ eventId })` result is `none` or the stored document.  The
per-confirmation `requestId_<n>` keys are modelled as an appended list. -/

/-- `MAX_CONFIRMATIONS = 2` in the db service. -/
def MAX_CONFIRMATIONS : Nat := 2

/-- A document of the `events` collection as `syncEventAndConfirm` reads and
writes it; `status` is the raw stored string. -/
structure SyncRecord where
  eventId : String
  confirmationCount : Nat
  status : String
  lastConfirmedAt : ℚ
  createdAt : ℚ
  requestIds : List String
deriving DecidableEq

/-- The value `syncEventAndConfirm` returns to its caller. -/
structure SyncResult where
  status : String
  confirmationCount : Nat
deriving DecidableEq

/-- `syncEventAndConfirm(eventId, requestId)` with `new Date()` modelled as
`now`: if a document for the event id exists and its confirmation count has
reached `MAX_CONFIRMATIONS`, report FINALIZED and leave the store untouched;
otherwise increment the count, store `CONFIRMED` exactly at the threshold and
`PENDING` below it, and stamp `lastConfirmedAt`; with no existing document,
insert a fresh PENDING record with count 1. -/
def syncEventAndConfirm (existing : Option SyncRecord)
    (eventId requestId : String) (now : ℚ) : SyncResult × SyncRecord :=
  match existing with
  | some ev =>
      if MAX_CONFIRMATIONS ≤ ev.confirmationCount then
        (⟨"FINALIZED", MAX_CONFIRMATIONS⟩, ev)
      else
        let current := ev.confirmationCount + 1
        let newStatus :=
          if current = MAX_CONFIRMATIONS then "CONFIRMED" else "PENDING"
        (⟨newStatus, current⟩,
         { ev with
             confirmationCount := current,
             status := newStatus,
             lastConfirmedAt := now,
             requestIds := ev.requestIds ++ [requestId] })
  | none =>
      (⟨"PENDING", 1⟩,
       { eventId := eventId, confirmationCount := 1, status := "PENDING",
         lastConfirmedAt := now, createdAt := now,
         requestIds := [requestId] })

end Relay

/-- C10 (amended): re-registering an event whose stored confirmation count
has reached `MAX_CONFIRMATIONS` — the condition under which the service
reports the event as FINALIZED — is a no-op: the stored record, including its
status and both timestamps, is returned unchanged, and the call reports
FINALIZED.  (The stored status string itself is never `"FINALIZED"`: at the
threshold the service stores `"CONFIRMED"` and only reports FINALIZED, so a
record whose stored status read `"FINALIZED"` with a count below the
threshold would still be modified — see the counterexample.) -/
theorem C10_finalized_noop (ev : Relay.SyncRecord)
    (eventId requestId : String) (now : ℚ)
    (h : Relay.MAX_CONFIRMATIONS ≤ ev.confirmationCount) :
    (Relay.syncEventAndConfirm (some ev) eventId requestId now).2 = ev ∧
    (Relay.syncEventAndConfirm (some ev) eventId requestId now).1 =
      ⟨"FINALIZED", Relay.MAX_CONFIRMATIONS⟩ := by
  simp [Relay.syncEventAndConfirm, h]

/-- Witness for C10 at a concrete fully-confirmed record. -/
theorem C10_finalized_noop_witness :
    (Relay.syncEventAndConfirm
      (some { eventId := "evt-1", confirmationCount := 2,
              status := "CONFIRMED", lastConfirmedAt := 3, createdAt := 1,
              requestIds := ["r1", "r2"] }) "evt-1" "r3" 9).2 =
      { eventId := "evt-1", confirmationCount := 2, status := "CONFIRMED",
        lastConfirmedAt := 3, createdAt := 1, requestIds := ["r1", "r2"] } := by
  obtain ⟨h1, -⟩ := C10_finalized_noop
    { eventId := "evt-1", confirmationCount := 2, status := "CONFIRMED",
      lastConfirmedAt := 3, createdAt := 1, requestIds := ["r1", "r2"] }
    "evt-1" "r3" 9 (by decide)
  exact h1

/-- C10 counterexample: the no-op guard tests the stored confirmation count,
not the stored status, so a stored record whose status field is
`"FINALIZED"` but whose count is 1 is NOT left alone: the call rewrites its
status to `"CONFIRMED"` and bumps `lastConfirmedAt` from 0 to 9 — the claim,
read over the stored status, fails on this input. -/
theorem C10_counterexample :
    (Relay.syncEventAndConfirm
      (some { eventId := "evt-1", confirmationCount := 1,
              status := "FINALIZED", lastConfirmedAt := 0, createdAt := 0,
              requestIds := ["r1"] }) "evt-1" "r2" 9).2.status =
        "CONFIRMED" ∧
    (Relay.syncEventAndConfirm
      (some { eventId := "evt-1", confirmationCount := 1,
              status := "FINALIZED", lastConfirmedAt := 0, createdAt := 0,
              requestIds := ["r1"] }) "evt-1" "r2" 9).2.lastConfirmedAt = 9 := by
  constructor
  · rfl
  · rfl
